import Mathlib

/-!
Verification of the serialchemy ModelSerializer (src/serialchemy/model_serializer.py).

The module is embedded shallowly: Python dicts become association lists with
first-match lookup and in-place replacement, model instances become explicit
attribute maps with a truthiness flag, and the in-place mutation performed by
the lazy default-serializer assignment becomes explicit state passing of the
fields map.  External collaborators of the module (the Field descriptor, the
plugin serializers and the column predicates, which live outside the sources
given here) are modelled from the specification and marked as such in their
doc comments.
-/

set_option autoImplicit false

namespace Serialchemy

/-- The registered plugin serializer classes appearing in EXTRA_SERIALIZERS:
DateTimeColumnSerializer, DateColumnSerializer and EnumSerializer. -/
inductive SerializerKind where
  | datetimeCol
  | dateCol
  | enumCol
  deriving DecidableEq

/-- Values held in model attributes and in serialized dicts.  vNone is the
Python None (also the default for a missing attribute); vTagged is the
abstract transport representation produced by a plugin serializer. -/
inductive Value where
  | vNone
  | vInt (n : Int)
  | vStr (s : String)
  | vBool (b : Bool)
  | vTagged (k : SerializerKind) (v : Value)
  deriving DecidableEq

/-- A mapped model property (a column or a composite), reduced to the data the
module consults: the three column-type predicates from serializer_checks. -/
structure ModelProperty where
  isDatetimeCol : Bool
  isDateCol : Bool
  isEnumCol : Bool
  deriving DecidableEq

/-- Modelled from the spec: the is_datetime_column predicate of
serializer_checks (not under the given sources), a pure boolean check on a
mapped property. -/
def is_datetime_column (p : ModelProperty) : Bool := p.isDatetimeCol

/-- Modelled from the spec: the is_date_column predicate of serializer_checks
(not under the given sources). -/
def is_date_column (p : ModelProperty) : Bool := p.isDateCol

/-- Modelled from the spec: the is_enum_column predicate of serializer_checks
(not under the given sources). -/
def is_enum_column (p : ModelProperty) : Bool := p.isEnumCol

/-- A plugin serializer instance: serializer_class(model_property), that is a
serializer kind constructed with the matched model property as context. -/
structure SerializerInst where
  kind : SerializerKind
  prop : ModelProperty
  deriving DecidableEq

/-- Modelled from the spec: a plugin serializer converts a value to its
transport representation; the concrete conversion (ISO strings, enum names)
is external, so it is modelled abstractly as tagging the value with the
serializer kind. -/
def SerializerInst.dumpVal (sr : SerializerInst) (v : Value) : Value :=
  Value.vTagged sr.kind v

/-- Modelled from the spec: the inverse conversion of a plugin serializer,
removing the transport tagging. -/
def SerializerInst.loadVal (_sr : SerializerInst) (v : Value) : Value :=
  match v with
  | Value.vTagged _ w => w
  | w => w

/-- Modelled from the spec: the Field descriptor (field.py, not under the
given sources).  It carries the three access-policy flags, a flag telling
whether it is a session-based (nested) field, and the optional attached
serializer (the _serializer attribute read through the serializer property). -/
structure Field where
  dump_only : Bool := false
  load_only : Bool := false
  creation_only : Bool := false
  isSessionBased : Bool := false
  serializer : Option SerializerInst := none
  deriving DecidableEq

/-- The Field() constructed by the implicit pass of ModelSerializer.__init__:
no access restrictions, no serializer. -/
def defaultField : Field := {}

/-- Modelled from the spec: Field.dump delegates to the attached serializer
when one is present and otherwise returns the value unchanged. -/
def Field.dumpVal (f : Field) (v : Value) : Value :=
  match f.serializer with
  | some sr => sr.dumpVal v
  | none => v

/-- Modelled from the spec: Field.load delegates to the attached serializer
when one is present and otherwise returns the value unchanged. -/
def Field.loadVal (f : Field) (v : Value) : Value :=
  match f.serializer with
  | some sr => sr.loadVal v
  | none => v

/-- Modelled from the spec: the session-aware load of a SessionBasedField.
The session only affects the resolution of nested models, which is outside
the scalar value domain modelled here, so the value conversion delegates to
the field as for plain fields. -/
def Field.loadWithSession (f : Field) (_session : Option Unit) (v : Value) : Value :=
  f.loadVal v

/-- Modelled from the spec: truthiness of a Field instance.  Section 4.2 of
the spec notes that a falsy field should not normally occur since every
property has a Field; the descriptor defines no custom truthiness, so an
instance is truthy. -/
def fieldTruthy (_f : Field) : Bool := true

/-- First-match lookup in an association list, the shallow embedding of a
Python dict read (keys are unique in an actual dict). -/
def dictGet {α : Type} : List (String × α) → String → Option α
  | [], _ => none
  | (k, v) :: rest, key => if k = key then some v else dictGet rest key

/-- Write through a key: replace the value at the first occurrence of the key
keeping its position, or append the binding when the key is absent.  This is
the shallow embedding of a Python dict write. -/
def dictSet {α : Type} : List (String × α) → String → α → List (String × α)
  | [], key, val => [(key, val)]
  | (k, v) :: rest, key, val =>
      if k = key then (k, val) :: rest else (k, v) :: dictSet rest key val

/-- Embedding of dict.setdefault: keep the existing binding when the key is
present, append the default binding otherwise. -/
def dictSetdefault {α : Type} (d : List (String × α)) (key : String) (val : α) :
    List (String × α) :=
  match dictGet d key with
  | some _ => d
  | none => d ++ [(key, val)]

/-- Embedding of dict.update: fold the entries of the second dict into the
first with dictSet. -/
def dictUpdate {α : Type} (d e : List (String × α)) : List (String × α) :=
  e.foldl (fun acc kv => dictSet acc kv.1 kv.2) d

/-- A model instance: its named attributes, plus its Python truthiness (an
instance of a class that defines no custom conversion is truthy). -/
structure ModelInst where
  attrs : List (String × Value)
  truthy : Bool := true
  deriving DecidableEq

/-- Embedding of getattr(model, attr, None). -/
def ModelInst.getattrD (m : ModelInst) (attr : String) : Value :=
  (dictGet m.attrs attr).getD Value.vNone

/-- Embedding of setattr(model, attr, v). -/
def ModelInst.setattr (m : ModelInst) (attr : String) (v : Value) : ModelInst :=
  { m with attrs := dictSet m.attrs attr v }

/-- The model class handed to ModelSerializer: its declared name, its mapper
columns and composites, and the instance produced by its zero-argument
constructor. -/
structure ModelClass where
  name : String
  columns : List (String × ModelProperty)
  composites : List (String × ModelProperty)
  newInstance : ModelInst
  deriving DecidableEq

/-- The model_properties property: an empty dict updated with the columns and
then with the composites, each contribution guarded by the truthiness of the
collection (an empty collection is falsy and skipped). -/
def ModelClass.model_properties (mc : ModelClass) : List (String × ModelProperty) :=
  let mp : List (String × ModelProperty) := []
  let mp := if mc.columns.isEmpty then mp else dictUpdate mp mc.columns
  if mc.composites.isEmpty then mp else dictUpdate mp mc.composites

/-- The ModelSerializer state: the _mapper_class and the _fields dict. -/
structure ModelSerializer where
  mapper_class : ModelClass
  fields : List (String × Field)
  deriving DecidableEq

/-- The model_properties property on the serializer, delegating to the mapper
class. -/
def ModelSerializer.model_properties (s : ModelSerializer) : List (String × ModelProperty) :=
  s.mapper_class.model_properties

/-- Embedding of property_name.startswith applied to the underscore prefix:
true exactly when the first character of the name is an underscore. -/
def isPrivateName (pn : String) : Bool :=
  match pn.data with
  | [] => false
  | c :: _ => c = ('_' : Char)

/-- One step of the implicit pass of ModelSerializer.__init__: skip private
names, give every other property name a default Field via setdefault. -/
def addImplicitField (fs : List (String × Field)) (pn : String) : List (String × Field) :=
  if isPrivateName pn then fs else dictSetdefault fs pn defaultField

/-- Embedding of ModelSerializer.__init__.  The declared argument stands for
the result of the class-level reflection _get_declared_fields (the dict of
class attributes of the serializer subclass that are Field instances; empty
for the base class). -/
def mkModelSerializer (declared : List (String × Field)) (mc : ModelClass) : ModelSerializer :=
  { mapper_class := mc
    fields := (mc.model_properties.map Prod.fst).foldl addImplicitField declared }

/-- EXTRA_SERIALIZERS: the ordered list of (serializer class, predicate)
pairs, in source order datetime, date, enum. -/
def EXTRA_SERIALIZERS : List (SerializerKind × (ModelProperty → Bool)) :=
  [(SerializerKind.datetimeCol, is_datetime_column),
   (SerializerKind.dateCol, is_date_column),
   (SerializerKind.enumCol, is_enum_column)]

/-- The body of the loop of _assign_default_field_serializer: when the
predicate of the pair accepts the model property, assign
serializer_class(model_property) to the field, else leave it. -/
def extraStep (model_property : ModelProperty) (f : Field)
    (p : SerializerKind × (ModelProperty → Bool)) : Field :=
  if p.2 model_property then { f with serializer := some ⟨p.1, model_property⟩ } else f

/-- Embedding of _assign_default_field_serializer.  When the serializer of
the field is unset and the property name resolves to a model property, the
loop over EXTRA_SERIALIZERS assigns serializer_class(model_property) for
every pair whose predicate accepts the property (the source loop has no
break, so a later match overwrites an earlier one).  The in-place mutation
of the field becomes returning the updated field. -/
def ModelSerializer.assign_default_field_serializer (s : ModelSerializer)
    (field : Field) (property_name : String) : Field :=
  match dictGet s.model_properties property_name with
  | none => field
  | some model_property =>
      if field.serializer.isNone then
        EXTRA_SERIALIZERS.foldl (extraStep model_property) field
      else field

/-- The serializer instance attached by a break-less first-to-last sweep over
a (serializer class, predicate) list: the LAST pair whose predicate accepts
the property, none when no predicate accepts it.  This is the
characterization the amended claim about default-serializer selection is
stated against. -/
def lastMatch (model_property : ModelProperty) :
    List (SerializerKind × (ModelProperty → Bool)) → Option SerializerInst
  | [] => none
  | p :: rest =>
      match lastMatch model_property rest with
      | some r => some r
      | none =>
          if p.2 model_property then some ⟨p.1, model_property⟩ else none

/-- The loop of ModelSerializer.dump over the items of the fields dict.  The
second list argument threads the fields dict through the in-place serializer
attachments; the first is the iterated snapshot of its items (the loop never
adds or removes keys, so the live iteration of the source coincides with
iterating the snapshot). -/
def dumpLoop (s : ModelSerializer) (model : ModelInst) :
    List (String × Field) → List (String × Field) →
    List (String × Value) × List (String × Field)
  | [], flds => ([], flds)
  | (attr, field) :: rest, flds =>
      if field.load_only then dumpLoop s model rest flds
      else
        let value := model.getattrD attr
        if fieldTruthy field then
          let field' := s.assign_default_field_serializer field attr
          let res := dumpLoop s model rest (dictSet flds attr field')
          ((attr, field'.dumpVal value) :: res.1, res.2)
        else
          let res := dumpLoop s model rest flds
          ((attr, value) :: res.1, res.2)

/-- Embedding of ModelSerializer.dump: the serialized dict together with the
serializer state after the lazy serializer attachments. -/
def ModelSerializer.dump (s : ModelSerializer) (model : ModelInst) :
    List (String × Value) × ModelSerializer :=
  let res := dumpLoop s model s.fields s.fields
  (res.1, { s with fields := res.2 })

/-- A warning emitted by load for a serialized key that is not a declared
field: warnings.warn names the offending field and the model class. -/
structure LoadWarning where
  field_name : String
  model_name : String
  deriving DecidableEq

/-- The deserialization of one value through a field: session-based fields
receive the session, plain fields only the value. -/
def fieldDeserialize (f : Field) (session : Option Unit) (v : Value) : Value :=
  if f.isSessionBased then f.loadWithSession session v else f.loadVal v

/-- The loop of ModelSerializer.load over the items of the serialized dict,
threading the model being populated, the fields dict (mutated in place by the
lazy serializer attachment) and the emitted warnings. -/
def loadLoop (s : ModelSerializer) (existingTruthy : Bool) (session : Option Unit) :
    List (String × Value) → ModelInst → List (String × Field) → List LoadWarning →
    ModelInst × List (String × Field) × List LoadWarning
  | [], model, flds, warns => (model, flds, warns)
  | (field_name, value) :: rest, model, flds, warns =>
      match dictGet flds field_name with
      | none =>
          loadLoop s existingTruthy session rest model flds
            (warns ++ [⟨field_name, s.mapper_class.name⟩])
      | some field =>
          if field.dump_only then
            loadLoop s existingTruthy session rest model flds warns
          else if field.creation_only && existingTruthy then
            loadLoop s existingTruthy session rest model flds warns
          else
            let field' := s.assign_default_field_serializer field field_name
            let deserialized := fieldDeserialize field' session value
            loadLoop s existingTruthy session rest
              (model.setattr field_name deserialized)
              (dictSet flds field_name field') warns

/-- The truthiness of the existing_model argument: None is falsy, an instance
has its own truthiness. -/
def optTruthy : Option ModelInst → Bool
  | some em => em.truthy
  | none => false

/-- The model the load loop starts from: the existing model when it is
truthy, otherwise the result of the _create_model hook (none when the hook
returned None, which makes the assert of load fire). -/
def loadBaseModel (createModel : List (String × Value) → Option ModelInst)
    (serialized : List (String × Value)) (existing_model : Option ModelInst) :
    Option ModelInst :=
  match existing_model with
  | some em => if em.truthy then some em else createModel serialized
  | none => createModel serialized

/-- Embedding of ModelSerializer.load.  The createModel argument stands for
the overridable _create_model hook; a hook returning None trips the assert of
the source, embedded as an error result.  On success the result carries the
populated model, the serializer state after the lazy serializer attachments
and the emitted warnings. -/
def ModelSerializer.load (s : ModelSerializer)
    (createModel : List (String × Value) → Option ModelInst)
    (serialized : List (String × Value)) (existing_model : Option ModelInst)
    (session : Option Unit) :
    Except String (ModelInst × ModelSerializer × List LoadWarning) :=
  match loadBaseModel createModel serialized existing_model with
  | none => Except.error ("ModelSerializer._create_model cannot return None")
  | some model =>
      let res := loadLoop s (optTruthy existing_model) session serialized model s.fields []
      Except.ok (res.1, { s with fields := res.2.1 }, res.2.2)

/-- The default _create_model hook: call the zero-argument constructor of the
model class, ignoring the serialized payload. -/
def ModelSerializer.createModelDefault (s : ModelSerializer)
    (_serialized : List (String × Value)) : Option ModelInst :=
  some s.mapper_class.newInstance

/-- Embedding of get_model_name. -/
def ModelSerializer.get_model_name (s : ModelSerializer) : String :=
  s.mapper_class.name

/-- The model component of a load result, when the load succeeded. -/
def loadedModel :
    Except String (ModelInst × ModelSerializer × List LoadWarning) → Option ModelInst
  | Except.ok r => some r.1
  | Except.error _ => none

/-- The warnings emitted by a successful load. -/
def loadedWarnings :
    Except String (ModelInst × ModelSerializer × List LoadWarning) → List LoadWarning
  | Except.ok r => r.2.2
  | Except.error _ => []

/-- A field with no access-policy flags, not session based and with no
attached serializer: dump and load are value identity on it. -/
def plainField (f : Field) : Bool :=
  !f.dump_only && !f.load_only && !f.creation_only && !f.isSessionBased && f.serializer.isNone

/-- A model property accepted by none of the EXTRA_SERIALIZERS predicates. -/
def propNoMatch (mp : ModelProperty) : Bool :=
  !(is_datetime_column mp) && !(is_date_column mp) && !(is_enum_column mp)

/-- Lifts propNoMatch to the optional result of a property lookup. -/
def optionNoMatch : Option ModelProperty → Bool
  | none => true
  | some mp => propNoMatch mp

/-! Concrete example data, used to evaluate the theorems on closed inputs. -/

/-- A plain scalar column: no predicate of EXTRA_SERIALIZERS accepts it. -/
def exPlainProp : ModelProperty := ⟨false, false, false⟩

/-- A datetime column. -/
def exDtProp : ModelProperty := ⟨true, false, false⟩

/-- A column accepted by both the datetime predicate and the enum predicate:
the predicates are independent boolean checks, so nothing rules the overlap
out. -/
def exOverlapProp : ModelProperty := ⟨true, false, true⟩

/-- A small mapped class with two plain columns and a datetime column. -/
def exModelClass : ModelClass :=
  { name := "User"
    columns := [("id", exPlainProp), ("name", exPlainProp), ("created_at", exDtProp)]
    composites := []
    newInstance := { attrs := [] } }

/-- A mapped class with two plain columns only. -/
def exPlainClass : ModelClass :=
  { name := "Point"
    columns := [("x", exPlainProp), ("y", exPlainProp)]
    composites := []
    newInstance := { attrs := [] } }

/-- A mapped class whose single column is accepted by two predicates. -/
def exOverlapClass : ModelClass :=
  { name := "M"
    columns := [("x", exOverlapProp)]
    composites := []
    newInstance := { attrs := [] } }

/-- A serializer over exModelClass with no declared fields. -/
def exSerializer : ModelSerializer := mkModelSerializer [] exModelClass

/-- A serializer over exPlainClass with no declared fields. -/
def exPlainSerializer : ModelSerializer := mkModelSerializer [] exPlainClass

/-- A serializer over exOverlapClass with no declared fields. -/
def exOverlapSerializer : ModelSerializer := mkModelSerializer [] exOverlapClass

/-- A declared dump-only field. -/
def exDumpOnlyField : Field := { dump_only := true }

/-- A declared creation-only field. -/
def exCreationOnlyField : Field := { creation_only := true }

/-- Declared fields of a serializer subclass: id is dump-only, code is
creation-only. -/
def exDeclared : List (String × Field) :=
  [("id", exDumpOnlyField), ("code", exCreationOnlyField)]

/-- A serializer over exModelClass with the declared fields above. -/
def exDeclaredSerializer : ModelSerializer := mkModelSerializer exDeclared exModelClass

/-- A field that already carries a serializer. -/
def exSetField : Field := { serializer := some ⟨SerializerKind.enumCol, exPlainProp⟩ }

/-- A live model instance of exModelClass. -/
def exUser : ModelInst :=
  { attrs := [("id", Value.vInt 1), ("name", Value.vStr ("Ann")), ("created_at", Value.vInt 100)] }

/-- A live model instance of exPlainClass. -/
def exPoint : ModelInst :=
  { attrs := [("x", Value.vInt 3), ("y", Value.vInt 4)] }

/-- A model instance whose boolean conversion is false. -/
def exFalsyInst : ModelInst :=
  { attrs := [("id", Value.vInt 9)], truthy := false }

/-! Lemmas about the dict embedding. -/

theorem dictGet_dictSet_self {α : Type} (d : List (String × α)) (k : String) (v : α) :
    dictGet (dictSet d k v) k = some v := by
  induction d with
  | nil => simp [dictSet, dictGet]
  | cons hd tl ih =>
      obtain ⟨k0, v0⟩ := hd
      by_cases h : k0 = k <;> simp [dictSet, dictGet, h, ih]

theorem dictGet_dictSet_ne {α : Type} (d : List (String × α)) {k k' : String} (v : α)
    (h : k' ≠ k) : dictGet (dictSet d k v) k' = dictGet d k' := by
  induction d with
  | nil => simp [dictSet, dictGet, Ne.symm h]
  | cons hd tl ih =>
      obtain ⟨k0, v0⟩ := hd
      by_cases h0 : k0 = k
      · subst h0
        simp [dictSet, dictGet, Ne.symm h]
      · by_cases h1 : k0 = k' <;> simp [dictSet, dictGet, h0, h1, h, ih]

theorem dictGet_append_some {α : Type} {d : List (String × α)} (e : List (String × α))
    {k : String} {v : α} (h : dictGet d k = some v) : dictGet (d ++ e) k = some v := by
  induction d with
  | nil => simp [dictGet] at h
  | cons hd tl ih =>
      obtain ⟨k0, v0⟩ := hd
      by_cases h0 : k0 = k
      · simp [dictGet, h0] at h ⊢
        exact h
      · simp [dictGet, h0] at h ⊢
        exact ih h

theorem dictGet_append_none {α : Type} {d : List (String × α)} (e : List (String × α))
    {k : String} (h : dictGet d k = none) : dictGet (d ++ e) k = dictGet e k := by
  induction d with
  | nil => simp
  | cons hd tl ih =>
      obtain ⟨k0, v0⟩ := hd
      by_cases h0 : k0 = k
      · simp [dictGet, h0] at h
      · simp [dictGet, h0] at h ⊢
        exact ih h

theorem dictGet_setdefault_mono {α : Type} {d : List (String × α)} {k' : String} {f : α}
    (k : String) (v : α) (h : dictGet d k' = some f) :
    dictGet (dictSetdefault d k v) k' = some f := by
  unfold dictSetdefault
  cases hg : dictGet d k with
  | some w => exact h
  | none => exact dictGet_append_some _ h

theorem dictGet_setdefault_isSome {α : Type} (d : List (String × α)) (k : String) (v : α) :
    (dictGet (dictSetdefault d k v) k).isSome = true := by
  unfold dictSetdefault
  cases hg : dictGet d k with
  | some w => simp [hg]
  | none =>
      rw [dictGet_append_none _ hg]
      simp [dictGet]

theorem dictGet_of_mem_nodup {α : Type} {d : List (String × α)}
    (hnd : (d.map Prod.fst).Nodup) {k : String} {v : α} (hm : (k, v) ∈ d) :
    dictGet d k = some v := by
  induction d with
  | nil => simp at hm
  | cons hd tl ih =>
      obtain ⟨k0, v0⟩ := hd
      simp only [List.map_cons, List.nodup_cons] at hnd
      rcases List.mem_cons.mp hm with heq | htl
      · obtain ⟨rfl, rfl⟩ := Prod.mk.injEq k0 v0 k v ▸ heq.symm
        simp [dictGet]
      · have hk : k0 ≠ k := by
          intro hh
          subst hh
          exact hnd.1 (List.mem_map_of_mem Prod.fst htl)
        simp [dictGet, hk]
        exact ih hnd.2 htl

/-! Lemmas about attribute access on model instances. -/

theorem getattrD_setattr_self (m : ModelInst) (k : String) (v : Value) :
    (m.setattr k v).getattrD k = v := by
  simp [ModelInst.setattr, ModelInst.getattrD, dictGet_dictSet_self]

theorem getattrD_setattr_ne (m : ModelInst) {k k' : String} (v : Value) (h : k' ≠ k) :
    (m.setattr k v).getattrD k' = m.getattrD k' := by
  simp [ModelInst.setattr, ModelInst.getattrD, dictGet_dictSet_ne _ _ h]

theorem setattr_truthy (m : ModelInst) (k : String) (v : Value) :
    (m.setattr k v).truthy = m.truthy := rfl

/-! Lemmas about the lazy default-serializer assignment. -/

theorem foldl_extraStep_eq (mp : ModelProperty) :
    ∀ (l : List (SerializerKind × (ModelProperty → Bool))) (f : Field),
    l.foldl (extraStep mp) f =
      match lastMatch mp l with
      | some r => { f with serializer := some r }
      | none => f := by
  intro l
  induction l with
  | nil => intro f; rfl
  | cons p rest ih =>
      intro f
      rw [List.foldl_cons, ih]
      cases hl : lastMatch mp rest with
      | some r =>
          simp only [lastMatch, hl]
          unfold extraStep
          split_ifs <;> rfl
      | none =>
          simp only [lastMatch, hl]
          unfold extraStep
          split_ifs <;> rfl

theorem assign_of_serializer_some (s : ModelSerializer) (f : Field) (n : String)
    (si : SerializerInst) (h : f.serializer = some si) :
    s.assign_default_field_serializer f n = f := by
  unfold ModelSerializer.assign_default_field_serializer
  cases dictGet s.model_properties n with
  | none => rfl
  | some mp => simp [h]

theorem assign_eq_lastMatch (s : ModelSerializer) (f : Field) (n : String)
    (mp : ModelProperty) (hser : f.serializer = none)
    (hprop : dictGet s.model_properties n = some mp) :
    s.assign_default_field_serializer f n =
      { f with serializer := lastMatch mp EXTRA_SERIALIZERS } := by
  unfold ModelSerializer.assign_default_field_serializer
  rw [hprop]
  simp only [hser, Option.isNone_none, if_true]
  rw [foldl_extraStep_eq]
  cases hl : lastMatch mp EXTRA_SERIALIZERS with
  | some r => rfl
  | none =>
      cases f
      simp_all

theorem lastMatch_nomatch (mp : ModelProperty) (h : propNoMatch mp = true) :
    lastMatch mp EXTRA_SERIALIZERS = none := by
  simp only [propNoMatch, Bool.and_eq_true, Bool.not_eq_true'] at h
  simp [lastMatch, EXTRA_SERIALIZERS, h.1.1, h.1.2, h.2]

theorem assign_of_noMatch (s : ModelSerializer) (f : Field) (n : String)
    (h : optionNoMatch (dictGet s.model_properties n) = true) :
    s.assign_default_field_serializer f n = f := by
  unfold ModelSerializer.assign_default_field_serializer
  cases hp : dictGet s.model_properties n with
  | none => rfl
  | some mp =>
      rw [hp] at h
      simp only [optionNoMatch] at h
      cases hser : f.serializer with
      | some si => simp [hser]
      | none =>
          simp only [hser, Option.isNone_none, if_true]
          rw [foldl_extraStep_eq, lastMatch_nomatch mp h]

theorem assign_flags (s : ModelSerializer) (f : Field) (n : String) :
    (s.assign_default_field_serializer f n).dump_only = f.dump_only ∧
    (s.assign_default_field_serializer f n).load_only = f.load_only ∧
    (s.assign_default_field_serializer f n).creation_only = f.creation_only ∧
    (s.assign_default_field_serializer f n).isSessionBased = f.isSessionBased := by
  unfold ModelSerializer.assign_default_field_serializer
  cases dictGet s.model_properties n with
  | none => exact ⟨rfl, rfl, rfl, rfl⟩
  | some mp =>
      by_cases h : f.serializer.isNone
      · simp only [h, if_true]
        rw [foldl_extraStep_eq]
        cases lastMatch mp EXTRA_SERIALIZERS <;> exact ⟨rfl, rfl, rfl, rfl⟩
      · simp only [h, if_false]
        exact ⟨rfl, rfl, rfl, rfl⟩

theorem assign_idem (s : ModelSerializer) (f : Field) (n : String) :
    s.assign_default_field_serializer (s.assign_default_field_serializer f n) n =
      s.assign_default_field_serializer f n := by
  cases hser : f.serializer with
  | some si =>
      rw [assign_of_serializer_some s f n si hser, assign_of_serializer_some s f n si hser]
  | none =>
      cases hp : dictGet s.model_properties n with
      | none =>
          unfold ModelSerializer.assign_default_field_serializer
          rw [hp]
      | some mp =>
          rw [assign_eq_lastMatch s f n mp hser hp]
          cases hl : lastMatch mp EXTRA_SERIALIZERS with
          | some r =>
              exact assign_of_serializer_some s _ n r rfl
          | none =>
              have hser2 : ({ f with serializer := none } : Field).serializer = none := rfl
              rw [assign_eq_lastMatch s _ n mp hser2 hp, hl]

/-! Lemmas about the dump loop. -/

theorem dumpLoop_fst (s : ModelSerializer) (model : ModelInst) :
    ∀ (entries flds : List (String × Field)),
    (dumpLoop s model entries flds).1 =
      (entries.filter (fun e => !e.2.load_only)).map
        (fun e => (e.1,
          (s.assign_default_field_serializer e.2 e.1).dumpVal (model.getattrD e.1))) := by
  intro entries
  induction entries with
  | nil => intro flds; simp [dumpLoop]
  | cons e rest ih =>
      intro flds
      obtain ⟨attr, field⟩ := e
      cases h : field.load_only with
      | true => simp [dumpLoop, h, List.filter_cons, ih]
      | false => simp [dumpLoop, h, fieldTruthy, List.filter_cons, ih]

/-! Lemmas about the load loop. -/

theorem loadLoop_truthy (s : ModelSerializer) (et : Bool) (session : Option Unit) :
    ∀ (ser : List (String × Value)) (model : ModelInst) (flds : List (String × Field))
      (warns : List LoadWarning),
    (loadLoop s et session ser model flds warns).1.truthy = model.truthy := by
  intro ser
  induction ser with
  | nil => intro model flds warns; rfl
  | cons e rest ih =>
      intro model flds warns
      obtain ⟨k, v⟩ := e
      cases hd : dictGet flds k with
      | none => simp only [loadLoop, hd]; exact ih _ _ _
      | some field =>
          simp only [loadLoop, hd]
          split_ifs with h1 h2
          · exact ih _ _ _
          · exact ih _ _ _
          · rw [ih]
            exact setattr_truthy _ _ _

theorem loadLoop_warns_sub (s : ModelSerializer) (et : Bool) (session : Option Unit) :
    ∀ (ser : List (String × Value)) (model : ModelInst) (flds : List (String × Field))
      (warns : List LoadWarning) (w : LoadWarning), w ∈ warns →
    w ∈ (loadLoop s et session ser model flds warns).2.2 := by
  intro ser
  induction ser with
  | nil => intro model flds warns w hw; exact hw
  | cons e rest ih =>
      intro model flds warns w hw
      obtain ⟨k, v⟩ := e
      cases hd : dictGet flds k with
      | none =>
          simp only [loadLoop, hd]
          exact ih _ _ _ _ (List.mem_append_left _ hw)
      | some field =>
          simp only [loadLoop, hd]
          split_ifs with h1 h2
          · exact ih _ _ _ _ hw
          · exact ih _ _ _ _ hw
          · exact ih _ _ _ _ hw

theorem loadLoop_warn_emitted (s : ModelSerializer) (et : Bool) (session : Option Unit) :
    ∀ (ser : List (String × Value)) (model : ModelInst) (flds : List (String × Field))
      (warns : List LoadWarning) (k : String) (v : Value),
    (k, v) ∈ ser → dictGet flds k = none →
    (⟨k, s.mapper_class.name⟩ : LoadWarning) ∈ (loadLoop s et session ser model flds warns).2.2 := by
  intro ser
  induction ser with
  | nil => intro model flds warns k v hm hk; simp at hm
  | cons e rest ih =>
      intro model flds warns k v hm hk
      obtain ⟨k0, v0⟩ := e
      by_cases hkk : k0 = k
      · subst hkk
        simp only [loadLoop, hk]
        exact loadLoop_warns_sub s et session _ _ _ _ _
          (List.mem_append_right _ (List.mem_singleton.mpr rfl))
      · have hm' : (k, v) ∈ rest := by
          rcases List.mem_cons.mp hm with heq | htl
          · exact absurd (congrArg Prod.fst heq.symm) hkk
          · exact htl
        cases hd : dictGet flds k0 with
        | none =>
            simp only [loadLoop, hd]
            exact ih _ _ _ _ _ hm' hk
        | some field =>
            simp only [loadLoop, hd]
            split_ifs with h1 h2
            · exact ih _ _ _ _ _ hm' hk
            · exact ih _ _ _ _ _ hm' hk
            · refine ih _ _ _ _ _ hm' ?_
              rw [dictGet_dictSet_ne _ _ (fun hh => hkk hh.symm)]
              exact hk

theorem loadLoop_unknown_attr (s : ModelSerializer) (et : Bool) (session : Option Unit) :
    ∀ (ser : List (String × Value)) (model : ModelInst) (flds : List (String × Field))
      (warns : List LoadWarning) (k : String), dictGet flds k = none →
    (loadLoop s et session ser model flds warns).1.getattrD k = model.getattrD k := by
  intro ser
  induction ser with
  | nil => intro model flds warns k hk; rfl
  | cons e rest ih =>
      intro model flds warns k hk
      obtain ⟨k0, v0⟩ := e
      cases hd : dictGet flds k0 with
      | none =>
          simp only [loadLoop, hd]
          exact ih _ _ _ _ hk
      | some field =>
          have hkk : k ≠ k0 := by
            intro hh
            rw [hh, hd] at hk
            exact Option.noConfusion hk
          simp only [loadLoop, hd]
          split_ifs with h1 h2
          · exact ih _ _ _ _ hk
          · exact ih _ _ _ _ hk
          · rw [ih _ _ _ _ (by rw [dictGet_dictSet_ne _ _ hkk]; exact hk)]
            exact getattrD_setattr_ne _ _ hkk

theorem loadLoop_frame (s : ModelSerializer) (et : Bool) (session : Option Unit) :
    ∀ (ser : List (String × Value)) (model : ModelInst) (flds : List (String × Field))
      (warns : List LoadWarning) (n : String),
    (∀ f : Field, dictGet flds n = some f → n ∈ ser.map Prod.fst →
      f.dump_only = true ∨ (f.creation_only && et) = true) →
    (loadLoop s et session ser model flds warns).1.getattrD n = model.getattrD n := by
  intro ser
  induction ser with
  | nil => intro model flds warns n hskip; rfl
  | cons e rest ih =>
      intro model flds warns n hskip
      obtain ⟨k0, v0⟩ := e
      have hrest : ∀ f : Field, dictGet flds n = some f → n ∈ rest.map Prod.fst →
          f.dump_only = true ∨ (f.creation_only && et) = true := by
        intro f hf hn
        exact hskip f hf (by simp [hn])
      cases hd : dictGet flds k0 with
      | none =>
          simp only [loadLoop, hd]
          exact ih _ _ _ _ hrest
      | some field =>
          simp only [loadLoop, hd]
          split_ifs with h1 h2
          · exact ih _ _ _ _ hrest
          · exact ih _ _ _ _ hrest
          · have hkk : n ≠ k0 := by
              intro hh
              subst hh
              rcases hskip field hd (by simp) with hcase | hcase
              · exact h1 hcase
              · exact h2 hcase
            have hget : dictGet (dictSet flds k0
                (s.assign_default_field_serializer field k0)) n = dictGet flds n :=
              dictGet_dictSet_ne _ _ hkk
            rw [ih _ _ _ _ (by rw [hget]; exact hrest)]
            exact getattrD_setattr_ne _ _ hkk

theorem loadLoop_apply (s : ModelSerializer) (et : Bool) (session : Option Unit) :
    ∀ (ser : List (String × Value)) (model : ModelInst) (flds : List (String × Field))
      (warns : List LoadWarning) (k : String) (v : Value) (f : Field),
    (ser.map Prod.fst).Nodup → (k, v) ∈ ser → dictGet flds k = some f →
    f.dump_only = false → (f.creation_only && et) = false →
    (loadLoop s et session ser model flds warns).1.getattrD k =
      fieldDeserialize (s.assign_default_field_serializer f k) session v := by
  intro ser
  induction ser with
  | nil => intro model flds warns k v f hnd hm hf h1 h2; simp at hm
  | cons e rest ih =>
      intro model flds warns k v f hnd hm hf h1 h2
      obtain ⟨k0, v0⟩ := e
      simp only [List.map_cons, List.nodup_cons] at hnd
      by_cases hkk : k0 = k
      · subst hkk
        have hv : v0 = v := by
          rcases List.mem_cons.mp hm with heq | htl
          · exact (congrArg Prod.snd heq).symm
          · exact absurd (List.mem_map_of_mem Prod.fst htl) hnd.1
        subst hv
        simp only [loadLoop, hf, h1, Bool.false_eq_true, if_false, h2, if_neg]
        rw [loadLoop_frame s et session rest _ _ _ k0
          (by intro g hg hn; exact absurd hn hnd.1)]
        exact getattrD_setattr_self _ _ _
      · have hm' : (k, v) ∈ rest := by
          rcases List.mem_cons.mp hm with heq | htl
          · exact absurd (congrArg Prod.fst heq.symm) hkk
          · exact htl
        cases hd : dictGet flds k0 with
        | none =>
            simp only [loadLoop, hd]
            exact ih _ _ _ _ _ _ hnd.2 hm' hf h1 h2
        | some field =>
            simp only [loadLoop, hd]
            split_ifs with g1 g2
            · exact ih _ _ _ _ _ _ hnd.2 hm' hf h1 h2
            · exact ih _ _ _ _ _ _ hnd.2 hm' hf h1 h2
            · refine ih _ _ _ _ _ _ hnd.2 hm' ?_ h1 h2
              rw [dictGet_dictSet_ne _ _ (fun hh => hkk hh.symm)]
              exact hf

/-! Unfolding helpers for load. -/

theorem loadBaseModel_truthy (cm : List (String × Value) → Option ModelInst)
    (ser : List (String × Value)) (em : ModelInst) (het : em.truthy = true) :
    loadBaseModel cm ser (some em) = some em := by
  simp [loadBaseModel, het]

theorem load_ok_of_base (s : ModelSerializer) (cm : List (String × Value) → Option ModelInst)
    (ser : List (String × Value)) (existing : Option ModelInst) (session : Option Unit)
    (m0 : ModelInst) (hb : loadBaseModel cm ser existing = some m0) :
    s.load cm ser existing session =
      Except.ok ((loadLoop s (optTruthy existing) session ser m0 s.fields []).1,
        { s with fields := (loadLoop s (optTruthy existing) session ser m0 s.fields []).2.1 },
        (loadLoop s (optTruthy existing) session ser m0 s.fields []).2.2) := by
  unfold ModelSerializer.load
  rw [hb]

theorem loadedModel_of_base (s : ModelSerializer) (cm : List (String × Value) → Option ModelInst)
    (ser : List (String × Value)) (existing : Option ModelInst) (session : Option Unit)
    (m0 : ModelInst) (hb : loadBaseModel cm ser existing = some m0) :
    loadedModel (s.load cm ser existing session) =
      some (loadLoop s (optTruthy existing) session ser m0 s.fields []).1 := by
  rw [load_ok_of_base s cm ser existing session m0 hb]
  rfl

theorem load_skip_key (s : ModelSerializer) (cm : List (String × Value) → Option ModelInst)
    (ser : List (String × Value)) (session : Option Unit) (existing : Option ModelInst)
    (m0 : ModelInst) (k : String) (f : Field)
    (hb : loadBaseModel cm ser existing = some m0) (hf : dictGet s.fields k = some f)
    (hskip : f.dump_only = true ∨ (f.creation_only && optTruthy existing) = true) :
    ∃ m', loadedModel (s.load cm ser existing session) = some m' ∧
      m'.getattrD k = m0.getattrD k := by
  refine ⟨_, loadedModel_of_base s cm ser existing session m0 hb, ?_⟩
  apply loadLoop_frame
  intro f' hf' hmem
  rw [hf] at hf'
  obtain rfl := Option.some.inj hf'
  exact hskip

theorem load_apply_key (s : ModelSerializer) (cm : List (String × Value) → Option ModelInst)
    (ser : List (String × Value)) (session : Option Unit) (existing : Option ModelInst)
    (m0 : ModelInst) (k : String) (v : Value) (f : Field)
    (hb : loadBaseModel cm ser existing = some m0)
    (hnd : (ser.map Prod.fst).Nodup) (hmem : (k, v) ∈ ser)
    (hf : dictGet s.fields k = some f) (hdo : f.dump_only = false)
    (hco : (f.creation_only && optTruthy existing) = false) :
    ∃ m', loadedModel (s.load cm ser existing session) = some m' ∧
      m'.getattrD k = fieldDeserialize (s.assign_default_field_serializer f k) session v :=
  ⟨_, loadedModel_of_base s cm ser existing session m0 hb,
    loadLoop_apply s (optTruthy existing) session ser m0 s.fields [] k v f
      hnd hmem hf hdo hco⟩

theorem dump_fst_eq (s : ModelSerializer) (model : ModelInst) :
    (s.dump model).1 =
      (s.fields.filter (fun e => !e.2.load_only)).map
        (fun e => (e.1,
          (s.assign_default_field_serializer e.2 e.1).dumpVal (model.getattrD e.1))) := by
  unfold ModelSerializer.dump
  exact dumpLoop_fst s model s.fields s.fields

theorem plainField_spec (f : Field) (h : plainField f = true) :
    f.dump_only = false ∧ f.load_only = false ∧ f.creation_only = false ∧
    f.isSessionBased = false ∧ f.serializer = none := by
  simp only [plainField, Bool.and_eq_true, Bool.not_eq_true',
    Option.isNone_iff_eq_none] at h
  exact ⟨h.1.1.1.1, h.1.1.1.2, h.1.1.2, h.1.2, h.2⟩

/-! The claims. -/

/-- Claim C1, counterexample: on a column accepted by both the datetime
predicate and the enum predicate, the break-less loop of
_assign_default_field_serializer attaches the enum serializer (the last
match), not the datetime serializer the claim (first match wins) calls for. -/
theorem assign_default_not_first_match :
    is_datetime_column exOverlapProp = true ∧
    is_enum_column exOverlapProp = true ∧
    (exOverlapSerializer.assign_default_field_serializer defaultField ("x")).serializer =
      some ⟨SerializerKind.enumCol, exOverlapProp⟩ ∧
    (exOverlapSerializer.assign_default_field_serializer defaultField ("x")).serializer ≠
      some ⟨SerializerKind.datetimeCol, exOverlapProp⟩ := by
  decide

/-- Claim C1, amended: in _assign_default_field_serializer, when the
serializer of the field is unset and the property name resolves to a known
model property, the ordered list of (serializer-type, predicate) pairs is
checked in order datetime-column, date-column, enum-column, and every
matching pair overwrites the assignment, so the LAST serializer type whose
predicate matches the model property is the one attached to the field (this
coincides with the first match whenever at most one predicate matches); if
no predicate matches, the serializer of the field stays unset, and the rest
of the field is unchanged in every case. -/
theorem assign_default_last_match_wins (s : ModelSerializer) (f : Field)
    (pname : String) (mp : ModelProperty) (hser : f.serializer = none)
    (hprop : dictGet s.model_properties pname = some mp) :
    s.assign_default_field_serializer f pname =
      { f with serializer := lastMatch mp EXTRA_SERIALIZERS } :=
  assign_eq_lastMatch s f pname mp hser hprop

/-- Witness for the amended claim C1: on the overlap column the attached
serializer is the last match, the enum serializer. -/
theorem assign_default_last_match_wins_witness :
    (defaultField.serializer = none ∧
      dictGet exOverlapSerializer.model_properties ("x") = some exOverlapProp) ∧
    exOverlapSerializer.assign_default_field_serializer defaultField ("x") =
      { defaultField with serializer := lastMatch exOverlapProp EXTRA_SERIALIZERS } :=
  ⟨⟨rfl, by decide⟩,
    assign_default_last_match_wins exOverlapSerializer defaultField ("x") exOverlapProp
      rfl (by decide)⟩

/-- Claim C2 (confirmed): after construction, every non-private property
name of the combined column+composite map has an entry in the fields
collection, and a Field declared under a name on the serializer subclass is
kept there unchanged: the implicit setdefault pass never overwrites it. -/
theorem construction_fields_invariant (declared : List (String × Field)) (mc : ModelClass) :
    (∀ pname : String, pname ∈ mc.model_properties.map Prod.fst →
      isPrivateName pname = false →
      (dictGet (mkModelSerializer declared mc).fields pname).isSome = true) ∧
    (∀ (pname : String) (f : Field), dictGet declared pname = some f →
      dictGet (mkModelSerializer declared mc).fields pname = some f) := by
  have hmono : ∀ (names : List String) (d : List (String × Field)) (k : String) (f : Field),
      dictGet d k = some f → dictGet (names.foldl addImplicitField d) k = some f := by
    intro names
    induction names with
    | nil => intro d k f h; exact h
    | cons n rest ih =>
        intro d k f h
        rw [List.foldl_cons]
        refine ih _ _ _ ?_
        unfold addImplicitField
        split_ifs
        · exact h
        · exact dictGet_setdefault_mono _ _ h
  have hsome : ∀ (names : List String) (d : List (String × Field)) (k : String),
      k ∈ names → isPrivateName k = false →
      (dictGet (names.foldl addImplicitField d) k).isSome = true := by
    intro names
    induction names with
    | nil => intro d k hk; simp at hk
    | cons n rest ih =>
        intro d k hk hpriv
        rw [List.foldl_cons]
        by_cases hkn : k = n
        · subst hkn
          have : addImplicitField d k = dictSetdefault d k defaultField := by
            unfold addImplicitField
            rw [hpriv]
            simp
          rw [this]
          have h1 := dictGet_setdefault_isSome d k defaultField
          cases hg : dictGet (dictSetdefault d k defaultField) k with
          | none => rw [hg] at h1; simp at h1
          | some f => rw [hmono rest _ k f hg]; rfl
        · rcases List.mem_cons.mp hk with heq | htl
          · exact absurd heq hkn
          · exact ih _ _ htl hpriv
  constructor
  · intro pname hmem hpriv
    exact hsome _ declared pname hmem hpriv
  · intro pname f h
    exact hmono _ declared pname f h

/-- Witness for claim C2: the name column of the example class gets an
implicit entry, and the declared dump-only id field survives construction. -/
theorem construction_fields_invariant_witness :
    (("name") ∈ exModelClass.model_properties.map Prod.fst ∧
      isPrivateName ("name") = false ∧
      dictGet exDeclared ("id") = some exDumpOnlyField) ∧
    (dictGet (mkModelSerializer exDeclared exModelClass).fields ("name")).isSome = true ∧
    dictGet (mkModelSerializer exDeclared exModelClass).fields ("id") = some exDumpOnlyField :=
  ⟨by decide,
    (construction_fields_invariant exDeclared exModelClass).1 ("name") (by decide) (by decide),
    (construction_fields_invariant exDeclared exModelClass).2 ("id") exDumpOnlyField (by decide)⟩

/-- Claim C6 (confirmed): on the creation path (no existing model), a
_create_model hook that returns nothing makes load fail with the fatal
internal-consistency error instead of returning a model; and the default
_create_model hook calls the zero-argument constructor of the model class,
ignoring the serialized payload entirely. -/
theorem load_create_model_none_fatal (s : ModelSerializer)
    (cm : List (String × Value) → Option ModelInst) (ser : List (String × Value))
    (session : Option Unit) (hnone : cm ser = none) :
    s.load cm ser none session =
      Except.error ("ModelSerializer._create_model cannot return None") ∧
    ∀ ser2 : List (String × Value),
      s.createModelDefault ser2 = some s.mapper_class.newInstance := by
  constructor
  · unfold ModelSerializer.load
    have hb : loadBaseModel cm ser none = none := hnone
    rw [hb]
  · intro ser2
    rfl

/-- Witness for claim C6: a hook returning nothing aborts the example load. -/
theorem load_create_model_none_fatal_witness :
    ((fun _ : List (String × Value) => (none : Option ModelInst)) [] = none) ∧
    exSerializer.load (fun _ => none) [] none none =
      Except.error ("ModelSerializer._create_model cannot return None") :=
  ⟨rfl, (load_create_model_none_fatal exSerializer (fun _ => none) [] none rfl).1⟩

/-- Claim C7 (confirmed): dump produces exactly one entry per field whose
load_only flag is false (a load-only field contributes no key at all), in
the iteration order of the fields collection, each value being the generic
attribute read of the model (None when the attribute is missing) converted
through the dump of the field after the lazy default-serializer
attachment. -/
theorem dump_shape (s : ModelSerializer) (model : ModelInst) :
    (s.dump model).1 =
      (s.fields.filter (fun e => !e.2.load_only)).map
        (fun e => (e.1,
          (s.assign_default_field_serializer e.2 e.1).dumpVal (model.getattrD e.1))) := by
  unfold ModelSerializer.dump
  exact dumpLoop_fst s model s.fields s.fields

/-- Claim C9 (confirmed): the default-serializer assignment is idempotent:
a field whose serializer is already set (explicitly, or by a previous call)
is returned unchanged, because the assignment is guarded by the serializer
being unset; and re-running the assignment on its own result changes
nothing. -/
theorem assign_default_idempotent (s : ModelSerializer) (f : Field) (n : String) :
    (∀ si : SerializerInst, f.serializer = some si →
      s.assign_default_field_serializer f n = f) ∧
    s.assign_default_field_serializer (s.assign_default_field_serializer f n) n =
      s.assign_default_field_serializer f n :=
  ⟨fun si h => assign_of_serializer_some s f n si h, assign_idem s f n⟩

/-- Witness for claim C9: a field carrying the enum serializer is returned
unchanged by the assignment on the datetime column of the example class. -/
theorem assign_default_idempotent_witness :
    exSetField.serializer = some ⟨SerializerKind.enumCol, exPlainProp⟩ ∧
    exSerializer.assign_default_field_serializer exSetField ("created_at") = exSetField :=
  ⟨rfl, (assign_default_idempotent exSerializer exSetField ("created_at")).1
    ⟨SerializerKind.enumCol, exPlainProp⟩ rfl⟩

/-- Claim C10 (confirmed): load distinguishes the creation path from the
update path by the truthiness of existing_model, not by it being None: for
a falsy existing model instance the whole call behaves exactly as the call
with no existing model, so a fresh model is created via the _create_model
hook instead of mutating the supplied instance, and creation-only fields
are applied as on the creation path. -/
theorem load_falsy_existing_creates (s : ModelSerializer)
    (cm : List (String × Value) → Option ModelInst) (ser : List (String × Value))
    (session : Option Unit) (em : ModelInst) (hf : em.truthy = false) :
    s.load cm ser (some em) session = s.load cm ser none session := by
  unfold ModelSerializer.load
  have hb : loadBaseModel cm ser (some em) = loadBaseModel cm ser none := by
    simp [loadBaseModel, hf]
  rw [hb]
  have ht : optTruthy (some em) = optTruthy none := by
    simp [optTruthy, hf]
  rw [ht]

/-- Witness for claim C10: loading onto a falsy instance equals the
creation-path load on the example serializer. -/
theorem load_falsy_existing_creates_witness :
    exFalsyInst.truthy = false ∧
    exSerializer.load exSerializer.createModelDefault [(("name"), Value.vStr ("Bob"))]
        (some exFalsyInst) none =
      exSerializer.load exSerializer.createModelDefault [(("name"), Value.vStr ("Bob"))]
        none none :=
  ⟨rfl, load_falsy_existing_creates exSerializer exSerializer.createModelDefault
    [(("name"), Value.vStr ("Bob"))] none exFalsyInst rfl⟩

/-- Claim C3 (confirmed): for a key of the serialized dict that names a known
field: a dump-only field is always skipped (the model attribute is never
written from input, on the update path and on the creation path alike); a
creation-only field is skipped exactly when an existing model was supplied
and is applied to the model when none was; every other recognized key is
deserialized through the field and assigned onto the model attribute of
that name. -/
theorem load_field_policy (s : ModelSerializer)
    (cm : List (String × Value) → Option ModelInst) (ser : List (String × Value))
    (session : Option Unit) (k : String) (v : Value) (f : Field)
    (hnd : (ser.map Prod.fst).Nodup) (hmem : (k, v) ∈ ser)
    (hf : dictGet s.fields k = some f) :
    (f.dump_only = true →
      (∀ em : ModelInst, em.truthy = true →
        ∃ m', loadedModel (s.load cm ser (some em) session) = some m' ∧
          m'.getattrD k = em.getattrD k) ∧
      (∀ m0 : ModelInst, cm ser = some m0 →
        ∃ m', loadedModel (s.load cm ser none session) = some m' ∧
          m'.getattrD k = m0.getattrD k)) ∧
    (f.dump_only = false → f.creation_only = true →
      (∀ em : ModelInst, em.truthy = true →
        ∃ m', loadedModel (s.load cm ser (some em) session) = some m' ∧
          m'.getattrD k = em.getattrD k) ∧
      (∀ m0 : ModelInst, cm ser = some m0 →
        ∃ m', loadedModel (s.load cm ser none session) = some m' ∧
          m'.getattrD k =
            fieldDeserialize (s.assign_default_field_serializer f k) session v)) ∧
    (f.dump_only = false → f.creation_only = false →
      (∀ em : ModelInst, em.truthy = true →
        ∃ m', loadedModel (s.load cm ser (some em) session) = some m' ∧
          m'.getattrD k =
            fieldDeserialize (s.assign_default_field_serializer f k) session v) ∧
      (∀ m0 : ModelInst, cm ser = some m0 →
        ∃ m', loadedModel (s.load cm ser none session) = some m' ∧
          m'.getattrD k =
            fieldDeserialize (s.assign_default_field_serializer f k) session v)) := by
  refine ⟨?_, ?_, ?_⟩
  · intro hdo
    constructor
    · intro em het
      exact load_skip_key s cm ser session (some em) em k f
        (loadBaseModel_truthy cm ser em het) hf (Or.inl hdo)
    · intro m0 hc
      exact load_skip_key s cm ser session none m0 k f hc hf (Or.inl hdo)
  · intro hdo hco
    constructor
    · intro em het
      refine load_skip_key s cm ser session (some em) em k f
        (loadBaseModel_truthy cm ser em het) hf (Or.inr ?_)
      simp [optTruthy, het, hco]
    · intro m0 hc
      refine load_apply_key s cm ser session none m0 k v f hc hnd hmem hf hdo ?_
      simp [optTruthy]
  · intro hdo hco
    constructor
    · intro em het
      refine load_apply_key s cm ser session (some em) em k v f
        (loadBaseModel_truthy cm ser em het) hnd hmem hf hdo ?_
      simp [hco]
    · intro m0 hc
      refine load_apply_key s cm ser session none m0 k v f hc hnd hmem hf hdo ?_
      simp [hco]

/-- Witness for claim C3: on the example serializer with a dump-only id
field, loading a dict that contains an id entry onto an existing user leaves
the id attribute of the user unchanged. -/
theorem load_field_policy_witness :
    (((([(("id"), Value.vInt 5), (("name"), Value.vStr ("Bob"))] :
        List (String × Value)).map Prod.fst).Nodup) ∧
      ((("id"), Value.vInt 5) ∈
        ([(("id"), Value.vInt 5), (("name"), Value.vStr ("Bob"))] : List (String × Value))) ∧
      dictGet exDeclaredSerializer.fields ("id") = some exDumpOnlyField ∧
      exDumpOnlyField.dump_only = true ∧ exUser.truthy = true) ∧
    (loadedModel (exDeclaredSerializer.load exDeclaredSerializer.createModelDefault
        [(("id"), Value.vInt 5), (("name"), Value.vStr ("Bob"))] (some exUser) none)).map
      (fun m => m.getattrD ("id")) = some (exUser.getattrD ("id")) := by
  refine ⟨by decide, ?_⟩
  obtain ⟨m', h1, h2⟩ :=
    ((load_field_policy exDeclaredSerializer exDeclaredSerializer.createModelDefault
      [(("id"), Value.vInt 5), (("name"), Value.vStr ("Bob"))] none ("id") (Value.vInt 5)
      exDumpOnlyField (by decide) (by decide) (by decide)).1 (by decide)).1 exUser rfl
  rw [h1]
  simp [h2]

/-- Claim C4 (confirmed): loading onto a (truthy) existing model succeeds,
keeps the truthiness of that instance, and only writes model attributes whose
names are keys of the serialized dict naming recognized fields that are
neither dump-only nor creation-only; every other attribute of the existing
model keeps the value it had before the call. -/
theorem load_existing_frame (s : ModelSerializer)
    (cm : List (String × Value) → Option ModelInst) (ser : List (String × Value))
    (session : Option Unit) (em : ModelInst) (het : em.truthy = true) :
    ∃ m' s' w, s.load cm ser (some em) session = Except.ok (m', s', w) ∧
      m'.truthy = em.truthy ∧
      ∀ n : String,
        ¬(n ∈ ser.map Prod.fst ∧ ∃ f : Field, dictGet s.fields n = some f ∧
            f.dump_only = false ∧ f.creation_only = false) →
        m'.getattrD n = em.getattrD n := by
  refine ⟨_, _, _, load_ok_of_base s cm ser (some em) session em
    (loadBaseModel_truthy cm ser em het), ?_, ?_⟩
  · exact loadLoop_truthy s _ session ser em s.fields []
  · intro n hn
    apply loadLoop_frame
    intro f hf hmem
    cases hdo : f.dump_only with
    | true => exact Or.inl rfl
    | false =>
        cases hco : f.creation_only with
        | true =>
            right
            simp [hco, optTruthy, het]
        | false => exact absurd ⟨hmem, f, hf, hdo, hco⟩ hn

/-- Witness for claim C4: patching the name of the example user does not
touch its created_at attribute. -/
theorem load_existing_frame_witness :
    exUser.truthy = true ∧
    (loadedModel (exDeclaredSerializer.load exDeclaredSerializer.createModelDefault
        [(("name"), Value.vStr ("Bob"))] (some exUser) none)).map
      (fun m => m.getattrD ("created_at")) = some (exUser.getattrD ("created_at")) := by
  refine ⟨rfl, ?_⟩
  obtain ⟨m', s', w, h1, h2, h3⟩ :=
    load_existing_frame exDeclaredSerializer exDeclaredSerializer.createModelDefault
      [(("name"), Value.vStr ("Bob"))] none exUser rfl
  have h4 := h3 ("created_at") (fun hx => absurd hx.1 (by decide))
  simp [loadedModel, h1, h4]

/-- Claim C5 (confirmed): a key of the serialized dict that does not name a
known field makes load emit a warning naming that field (and the model
class), does not make load fail, and leaves every model attribute of that
name untouched while the rest of the dict is still processed (the load still
returns a populated model). -/
theorem load_unknown_key_warns (s : ModelSerializer)
    (cm : List (String × Value) → Option ModelInst) (ser : List (String × Value))
    (session : Option Unit) (existing : Option ModelInst) (k : String) (v : Value)
    (m0 : ModelInst) (hmem : (k, v) ∈ ser) (hk : dictGet s.fields k = none)
    (hb : loadBaseModel cm ser existing = some m0) :
    ∃ m' s' w, s.load cm ser existing session = Except.ok (m', s', w) ∧
      (⟨k, s.mapper_class.name⟩ : LoadWarning) ∈ w ∧
      m'.getattrD k = m0.getattrD k := by
  refine ⟨_, _, _, load_ok_of_base s cm ser existing session m0 hb, ?_, ?_⟩
  · exact loadLoop_warn_emitted s _ session ser m0 s.fields [] k v hmem hk
  · exact loadLoop_unknown_attr s _ session ser m0 s.fields [] k hk

/-- Witness for claim C5: loading a dict with an unrecognized key onto the
example user warns about that key, succeeds, and leaves the attribute
unset. -/
theorem load_unknown_key_warns_witness :
    ((("nonexistent"), Value.vInt 1) ∈
        ([(("nonexistent"), Value.vInt 1)] : List (String × Value)) ∧
      dictGet exSerializer.fields ("nonexistent") = none ∧
      loadBaseModel exSerializer.createModelDefault
        [(("nonexistent"), Value.vInt 1)] (some exUser) = some exUser) ∧
    (⟨("nonexistent"), ("User")⟩ : LoadWarning) ∈
      loadedWarnings (exSerializer.load exSerializer.createModelDefault
        [(("nonexistent"), Value.vInt 1)] (some exUser) none) ∧
    (loadedModel (exSerializer.load exSerializer.createModelDefault
        [(("nonexistent"), Value.vInt 1)] (some exUser) none)).map
      (fun m => m.getattrD ("nonexistent")) = some (exUser.getattrD ("nonexistent")) := by
  refine ⟨⟨by decide, by decide, by decide⟩, ?_⟩
  obtain ⟨m', s', w, h1, h2, h3⟩ :=
    load_unknown_key_warns exSerializer exSerializer.createModelDefault
      [(("nonexistent"), Value.vInt 1)] none (some exUser) ("nonexistent") (Value.vInt 1)
      exUser (by decide) (by decide) (by decide)
  constructor
  · simpa [loadedWarnings, h1] using h2
  · simp [loadedModel, h1, h3]

/-- Claim C8 (confirmed): for a serializer all of whose fields are plain
(no access-policy flags, no custom serializer) and whose properties match no
default-serializer predicate, loading the dump of a model onto a freshly
created instance reproduces the attribute value of the original model for
every field. -/
theorem load_dump_roundtrip (s : ModelSerializer) (model : ModelInst) (session : Option Unit)
    (hnd : (s.fields.map Prod.fst).Nodup)
    (hplain : ∀ e ∈ s.fields, plainField e.2 = true)
    (hnomatch : ∀ e ∈ s.fields, optionNoMatch (dictGet s.model_properties e.1) = true) :
    ∃ m', loadedModel (s.load s.createModelDefault (s.dump model).1 none session) = some m' ∧
      ∀ e ∈ s.fields, m'.getattrD e.1 = model.getattrD e.1 := by
  have hfilter : s.fields.filter (fun e => !e.2.load_only) = s.fields := by
    apply List.filter_eq_self.mpr
    intro e he
    obtain ⟨_, hlo, _, _, _⟩ := plainField_spec e.2 (hplain e he)
    simp [hlo]
  have hmap : ∀ e ∈ s.fields,
      (e.1, (s.assign_default_field_serializer e.2 e.1).dumpVal (model.getattrD e.1)) =
        (e.1, model.getattrD e.1) := by
    intro e he
    obtain ⟨_, _, _, _, hser⟩ := plainField_spec e.2 (hplain e he)
    rw [assign_of_noMatch s e.2 e.1 (hnomatch e he)]
    simp [Field.dumpVal, hser]
  have hdump : (s.dump model).1 = s.fields.map (fun e => (e.1, model.getattrD e.1)) := by
    rw [dump_fst_eq, hfilter]
    exact List.map_congr_left hmap
  have hbase : loadBaseModel s.createModelDefault (s.dump model).1 none =
      some s.mapper_class.newInstance := rfl
  refine ⟨_, loadedModel_of_base s s.createModelDefault (s.dump model).1 none session
    s.mapper_class.newInstance hbase, ?_⟩
  intro e he
  obtain ⟨hdo, _, hco, hsb, hser⟩ := plainField_spec e.2 (hplain e he)
  have hkeys : ((s.dump model).1.map Prod.fst).Nodup := by
    rw [hdump, List.map_map]
    have heq : (s.fields.map (Prod.fst ∘ fun e => (e.1, model.getattrD e.1))) =
        s.fields.map Prod.fst := List.map_congr_left (fun a _ => rfl)
    rw [heq]
    exact hnd
  have hmem : (e.1, model.getattrD e.1) ∈ (s.dump model).1 := by
    rw [hdump]
    exact List.mem_map.mpr ⟨e, he, rfl⟩
  have hget : dictGet s.fields e.1 = some e.2 := by
    obtain ⟨k, f⟩ := e
    exact dictGet_of_mem_nodup hnd he
  have happly := loadLoop_apply s (optTruthy (none : Option ModelInst)) session
    (s.dump model).1 s.mapper_class.newInstance s.fields [] e.1 (model.getattrD e.1) e.2
    hkeys hmem hget hdo (by simp [optTruthy])
  rw [happly, assign_of_noMatch s e.2 e.1 (hnomatch e he)]
  simp [fieldDeserialize, hsb, Field.loadVal, hser]

/-- Witness for claim C8: the dump of the example point, loaded onto a fresh
instance, reproduces its x attribute. -/
theorem load_dump_roundtrip_witness :
    ((exPlainSerializer.fields.map Prod.fst).Nodup ∧
      (∀ e ∈ exPlainSerializer.fields, plainField e.2 = true) ∧
      (∀ e ∈ exPlainSerializer.fields,
        optionNoMatch (dictGet exPlainSerializer.model_properties e.1) = true)) ∧
    (loadedModel (exPlainSerializer.load exPlainSerializer.createModelDefault
        (exPlainSerializer.dump exPoint).1 none none)).map
      (fun m => m.getattrD ("x")) = some (exPoint.getattrD ("x")) := by
  refine ⟨⟨by decide, by decide, by decide⟩, ?_⟩
  obtain ⟨m', h1, h2⟩ :=
    load_dump_roundtrip exPlainSerializer exPoint none (by decide) (by decide) (by decide)
  have h3 := h2 (("x"), defaultField) (by decide)
  rw [h1]
  simpa using h3

end Serialchemy
